import Mathlib

/-!
Verification of the Gash digest engine (Adler-32, CRC-32, ELF, MD5, SHA-256).

Shallow embedding of `src/source/Hashes/*.cpp`.  Machine words (`uint32`,
`unsigned short`, `byte`) are modelled as `Nat` with explicit reduction
modulo `2^32`, `2^16`, `2^8` exactly where the C++ arithmetic wraps.
A byte sequence (`std::vector<byte>`, `std::string`) is a `List Nat`.
The host is modelled as little-endian (`MessageHash::_isLittleEndian`
returns `true`), matching the usual execution environment; every
`_littleEndian` branch below takes the little-endian arm.
-/

set_option maxRecDepth 100000

namespace Gash

/-- Reduction modulo `2^32`: the wrap of C++ `uint32` arithmetic. -/
def u32 (n : Nat) : Nat := n % 4294967296

namespace MessageHash

/-- One lowercase hexadecimal digit, as produced by `std::hex` output. -/
def hexChar (n : Nat) : Char :=
  if n < 10 then Char.ofNat (48 + n) else Char.ofNat (97 + (n - 10))

/-- Render one 32-bit word as 8 zero-padded lowercase hex digits
(`ss << setfill('0') << hex << setw(8) << *it`). -/
def toHex8 (w : Nat) : List Char :=
  (List.range 8).map (fun i => hexChar ((w >>> (28 - 4 * i)) % 16))

/-- `MessageHash::asString`: concatenate each word as 8 hex digits, word 0 first. -/
def asString (hash : List Nat) : String :=
  String.mk ((hash.map toHex8).flatten)

/-- `MessageHash::_lcshift`: 32-bit left circular shift. -/
def lcshift (value s : Nat) : Nat :=
  u32 (value <<< s) ||| (value >>> (32 - s))

/-- `MessageHash::_rcshift`: 32-bit right circular shift. -/
def rcshift (value s : Nat) : Nat :=
  (value >>> s) ||| u32 (value <<< (32 - s))

end MessageHash

/-- Model of a C++ `std::ifstream`: the underlying bytes, the read
position, and the `fail`/`bad` and `eof` flag groups. -/
structure IFStream where
  contents : List Nat
  pos : Nat
  fail : Bool
  eof : Bool
deriving DecidableEq, Repr

/-- The guard `file.fail() || !file.good()` used by every file path:
it holds exactly when some flag is set. -/
def IFStream.bad (s : IFStream) : Bool := s.fail || s.eof

/-- Bytes remaining from the current read position to EOF: what the
`while (file.peek() != -1) ... file.get()` loops consume. -/
def IFStream.remaining (s : IFStream) : List Nat := s.contents.drop s.pos

/-- The stream after `file.clear(); file.seekg(0);`. -/
def IFStream.rewound (s : IFStream) : IFStream :=
  { contents := s.contents, pos := 0, fail := false, eof := false }

/-- Result of a compute-from-file call: the stream on return, the
`_hash` words on return, and the returned string. -/
structure FileResult where
  stream : IFStream
  hash : List Nat
  output : String
deriving DecidableEq, Repr

/-! ## Adler-32 (`adler32.cpp`) -/

namespace Adler32

/-- One iteration of the loop in `Adler32::calculateHash`.  `A` and `B`
are C++ `unsigned short`, so each `+=` wraps modulo `2^16` before the
`%= 65521` reduction. -/
def step (p : Nat × Nat) (v : Nat) : Nat × Nat :=
  let A := ((p.1 + v) % 65536) % 65521
  let B := ((p.2 + A) % 65536) % 65521
  (A, B)

/-- The digest word stored in `_hash.at(0)`:
`((uint32_t)B << 16) | A` after folding over the data. -/
def digestWord (data : List Nat) : Nat :=
  let p := data.foldl step (1, 0)
  (p.2 <<< 16) ||| p.1

/-- `Adler32::calculateHash(const vector<byte_t>&)`. -/
def calculateHash (data : List Nat) : String :=
  MessageHash.asString [digestWord data]

/-- `Adler32::calculateHash(const string&)`: the string's bytes are
copied into a vector and hashed. -/
def calculateHashString (str : List Nat) : String :=
  calculateHash str

/-- `Adler32::calculateHash(ifstream&)`: on a bad stream, return the
all-zero `_hash` immediately (no rewind, no flag clear); otherwise fold
over the remaining bytes, then clear flags and seek to the start. -/
def calculateHashFile (s : IFStream) : FileResult :=
  if s.bad then
    { stream := s, hash := [0], output := MessageHash.asString [0] }
  else
    let w := digestWord s.remaining
    { stream := s.rewound, hash := [w], output := MessageHash.asString [w] }

end Adler32

/-! ## CRC-32 (`crc32.cpp`) -/

namespace CRC32

/-- The fixed polynomial `CRC32::_polynomial`. -/
def polynomial : Nat := 0xedb88320

/-- Inner loop of `CRC32::_makeTable`: one shift-right step,
XOR-ing the polynomial when the low bit is set. -/
def tableStep (value : Nat) : Nat :=
  if value &&& 0x00000001 == 1 then (value >>> 1) ^^^ polynomial else value >>> 1

/-- Eight `tableStep` iterations starting from the byte value `i`. -/
def tableEntry (i : Nat) : Nat :=
  tableStep (tableStep (tableStep (tableStep
    (tableStep (tableStep (tableStep (tableStep i)))))))

/-- The 256-entry table filled by `CRC32::_makeTable`. -/
def table : List Nat := (List.range 256).map tableEntry

/-- One iteration of the loop in `CRC32::calculateHash`:
`word = (word >> 8) ^ _table[(word & 0xFF) ^ v]`. -/
def step (w v : Nat) : Nat :=
  (w >>> 8) ^^^ table.getD ((w &&& 0xFF) ^^^ v) 0

/-- The digest word: fold from `0xFFFFFFFF`, then complement. -/
def digestWord (data : List Nat) : Nat :=
  (data.foldl step 0xFFFFFFFF) ^^^ 0xFFFFFFFF

/-- `CRC32::calculateHash(const vector<byte>&)`. -/
def calculateHash (data : List Nat) : String :=
  MessageHash.asString [digestWord data]

/-- `CRC32::calculateHash(ifstream&)`. -/
def calculateHashFile (s : IFStream) : FileResult :=
  if s.bad then
    { stream := s, hash := [0], output := MessageHash.asString [0] }
  else
    let w := digestWord s.remaining
    { stream := s.rewound, hash := [w], output := MessageHash.asString [w] }

end CRC32

/-! ## ELF hash (`elf.cpp`) -/

namespace ELF

/-- One iteration of the loop in `ELF::calculateHash`: shift in a byte,
fold the top nibble back in, then clear it. -/
def step (w v : Nat) : Nat :=
  let x := u32 (u32 (w <<< 4) + v)
  let temp := x &&& 0xf0000000
  let x2 := if temp ≠ 0x00000000 then x ^^^ (temp >>> 24) else x
  x2 &&& (temp ^^^ 0xffffffff)

/-- The digest word: fold from 0 with no finalization. -/
def digestWord (data : List Nat) : Nat := data.foldl step 0

/-- `ELF::calculateHash(const vector<byte>&)`. -/
def calculateHash (data : List Nat) : String :=
  MessageHash.asString [digestWord data]

/-- `ELF::calculateHash(ifstream&)`. -/
def calculateHashFile (s : IFStream) : FileResult :=
  if s.bad then
    { stream := s, hash := [0], output := MessageHash.asString [0] }
  else
    let w := digestWord s.remaining
    { stream := s.rewound, hash := [w], output := MessageHash.asString [w] }

end ELF

/-! ## MD5 (`md5.cpp`) -/

/-- Round up `n + 9` to the next multiple of 64:
`datasize = size + 9; while ((datasize % 64) != 0) ++datasize;`. -/
def padSize (n : Nat) : Nat :=
  (n + 9) + ((64 - (n + 9) % 64) % 64)

/-- Pack up to four bytes little-endian:
`append |= byte << (m * 8)` for `m = 0, 1, 2, 3`. -/
def packBytesLE : List Nat → Nat → Nat
  | [], _ => 0
  | b :: rest, m => (b <<< (m * 8)) ||| packBytesLE rest (m + 1)

/-- Pack up to four bytes big-endian:
`append |= byte << (24 - m * 8)` for `m = 0, 1, 2, 3`. -/
def packBytesBE : List Nat → Nat → Nat
  | [], _ => 0
  | b :: rest, m => (b <<< (24 - m * 8)) ||| packBytesBE rest (m + 1)

/-- Build the 16 words of one chunk from a byte stream, mirroring the
nested `j`/`m` loops of the file paths of `MD5::calculateHash` and
`SHA256::calculateHash`: each word takes up to four bytes via `pack`;
`endOfStream` is set when a `file.peek()` returns `-1`, i.e. when fewer
than four bytes remain at the start of a word; once set, the remaining
words of the chunk stay zero.  Returns the words read, the unread bytes,
`blockData` (bytes consumed in this chunk) and the `endOfStream` flag. -/
def readBlockWords (pack : List Nat → Nat) :
    Nat → List Nat → Bool → List Nat × List Nat × Nat × Bool
  | 0, bytes, eos => ([], bytes, 0, eos)
  | j + 1, bytes, eos =>
    if eos then (List.replicate (j + 1) 0, bytes, 0, eos)
    else
      let eosNext := decide (bytes.length < 4)
      let w := pack (bytes.take 4)
      let r := readBlockWords pack j (bytes.drop 4) eosNext
      (w :: r.1, r.2.1, (bytes.take 4).length + r.2.2.1, r.2.2.2)

namespace MD5

/-- The four chaining variables `_hash[0..3]`. -/
structure Chain where
  a : Nat
  b : Nat
  c : Nat
  d : Nat
deriving DecidableEq, Repr

/-- `MD5::_initializeHash` on a little-endian host. -/
def initHash : Chain :=
  ⟨0x67452301, 0xefcdab89, 0x98badcfe, 0x10325476⟩

/-- `MD5::_FF`: round-1 step function. -/
def FF (a b c d Mi s t : Nat) : Nat :=
  let F_func := (b &&& c) ||| ((b ^^^ 0xffffffff) &&& d)
  u32 (b + MessageHash.lcshift (u32 (a + F_func + Mi + t)) s)

/-- `MD5::_GG`: round-2 step function. -/
def GG (a b c d Mi s t : Nat) : Nat :=
  let G_func := (b &&& d) ||| (c &&& (d ^^^ 0xffffffff))
  u32 (b + MessageHash.lcshift (u32 (a + G_func + Mi + t)) s)

/-- `MD5::_HH`: round-3 step function. -/
def HH (a b c d Mi s t : Nat) : Nat :=
  let H_func := b ^^^ c ^^^ d
  u32 (b + MessageHash.lcshift (u32 (a + H_func + Mi + t)) s)

/-- `MD5::_II`: round-4 step function. -/
def II (a b c d Mi s t : Nat) : Nat :=
  let I_func := c ^^^ (b ||| (d ^^^ 0xffffffff))
  u32 (b + MessageHash.lcshift (u32 (a + I_func + Mi + t)) s)

/-- `MD5::_round1`. -/
def round1 (st : Chain) (m : List Nat) : Chain :=
  let a := FF st.a st.b st.c st.d (m.getD 0 0)  7 0xd76aa478
  let d := FF st.d a st.b st.c (m.getD 1 0) 12 0xe8c7b756
  let c := FF st.c d a st.b (m.getD 2 0) 17 0x242070db
  let b := FF st.b c d a (m.getD 3 0) 22 0xc1bdceee
  let a := FF a b c d (m.getD 4 0)  7 0xf57c0faf
  let d := FF d a b c (m.getD 5 0) 12 0x4787c62a
  let c := FF c d a b (m.getD 6 0) 17 0xa8304613
  let b := FF b c d a (m.getD 7 0) 22 0xfd469501
  let a := FF a b c d (m.getD 8 0)  7 0x698098d8
  let d := FF d a b c (m.getD 9 0) 12 0x8b44f7af
  let c := FF c d a b (m.getD 10 0) 17 0xffff5bb1
  let b := FF b c d a (m.getD 11 0) 22 0x895cd7be
  let a := FF a b c d (m.getD 12 0)  7 0x6b901122
  let d := FF d a b c (m.getD 13 0) 12 0xfd987193
  let c := FF c d a b (m.getD 14 0) 17 0xa679438e
  let b := FF b c d a (m.getD 15 0) 22 0x49b40821
  ⟨a, b, c, d⟩

/-- `MD5::_round2`. -/
def round2 (st : Chain) (m : List Nat) : Chain :=
  let a := GG st.a st.b st.c st.d (m.getD 1 0)  5 0xf61e2562
  let d := GG st.d a st.b st.c (m.getD 6 0)  9 0xc040b340
  let c := GG st.c d a st.b (m.getD 11 0) 14 0x265e5a51
  let b := GG st.b c d a (m.getD 0 0) 20 0xe9b6c7aa
  let a := GG a b c d (m.getD 5 0)  5 0xd62f105d
  let d := GG d a b c (m.getD 10 0)  9 0x02441453
  let c := GG c d a b (m.getD 15 0) 14 0xd8a1e681
  let b := GG b c d a (m.getD 4 0) 20 0xe7d3fbc8
  let a := GG a b c d (m.getD 9 0)  5 0x21e1cde6
  let d := GG d a b c (m.getD 14 0)  9 0xc33707d6
  let c := GG c d a b (m.getD 3 0) 14 0xf4d50d87
  let b := GG b c d a (m.getD 8 0) 20 0x455a14ed
  let a := GG a b c d (m.getD 13 0)  5 0xa9e3e905
  let d := GG d a b c (m.getD 2 0)  9 0xfcefa3f8
  let c := GG c d a b (m.getD 7 0) 14 0x676f02d9
  let b := GG b c d a (m.getD 12 0) 20 0x8d2a4c8a
  ⟨a, b, c, d⟩

/-- `MD5::_round3`. -/
def round3 (st : Chain) (m : List Nat) : Chain :=
  let a := HH st.a st.b st.c st.d (m.getD 5 0)  4 0xfffa3942
  let d := HH st.d a st.b st.c (m.getD 8 0) 11 0x8771f681
  let c := HH st.c d a st.b (m.getD 11 0) 16 0x6d9d6122
  let b := HH st.b c d a (m.getD 14 0) 23 0xfde5380c
  let a := HH a b c d (m.getD 1 0)  4 0xa4beea44
  let d := HH d a b c (m.getD 4 0) 11 0x4bdecfa9
  let c := HH c d a b (m.getD 7 0) 16 0xf6bb4b60
  let b := HH b c d a (m.getD 10 0) 23 0xbebfbc70
  let a := HH a b c d (m.getD 13 0)  4 0x289b7ec6
  let d := HH d a b c (m.getD 0 0) 11 0xeaa127fa
  let c := HH c d a b (m.getD 3 0) 16 0xd4ef3085
  let b := HH b c d a (m.getD 6 0) 23 0x04881d05
  let a := HH a b c d (m.getD 9 0)  4 0xd9d4d039
  let d := HH d a b c (m.getD 12 0) 11 0xe6db99e5
  let c := HH c d a b (m.getD 15 0) 16 0x1fa27cf8
  let b := HH b c d a (m.getD 2 0) 23 0xc4ac5665
  ⟨a, b, c, d⟩

/-- `MD5::_round4`. -/
def round4 (st : Chain) (m : List Nat) : Chain :=
  let a := II st.a st.b st.c st.d (m.getD 0 0)  6 0xf4292244
  let d := II st.d a st.b st.c (m.getD 7 0) 10 0x432aff97
  let c := II st.c d a st.b (m.getD 14 0) 15 0xab9423a7
  let b := II st.b c d a (m.getD 5 0) 21 0xfc93a039
  let a := II a b c d (m.getD 12 0)  6 0x655b59c3
  let d := II d a b c (m.getD 3 0) 10 0x8f0ccc92
  let c := II c d a b (m.getD 10 0) 15 0xffeff47d
  let b := II b c d a (m.getD 1 0) 21 0x85845dd1
  let a := II a b c d (m.getD 8 0)  6 0x6fa87e4f
  let d := II d a b c (m.getD 15 0) 10 0xfe2ce6e0
  let c := II c d a b (m.getD 6 0) 15 0xa3014314
  let b := II b c d a (m.getD 13 0) 21 0x4e0811a1
  let a := II a b c d (m.getD 4 0)  6 0xf7537e82
  let d := II d a b c (m.getD 11 0) 10 0xbd3af235
  let c := II c d a b (m.getD 2 0) 15 0x2ad7d2bb
  let b := II b c d a (m.getD 9 0) 21 0xeb86d391
  ⟨a, b, c, d⟩

/-- One 64-byte chunk: save the chaining variables, run the four
rounds, then add the saved values back (each `+=` wraps). -/
def processBlock (st : Chain) (block : List Nat) : Chain :=
  let r := round4 (round3 (round2 (round1 st block) block) block) block
  ⟨u32 (r.a + st.a), u32 (r.b + st.b), u32 (r.c + st.c), u32 (r.d + st.d)⟩

/-- `MD5::_padVector`: append `0x80` and zeros up to the padded size,
then overwrite bytes `datasize-8 .. datasize-5` with the 32-bit bit
count, least-significant byte first; bytes `datasize-4 .. datasize-1`
stay zero. -/
def padVector (data : List Nat) : List Nat :=
  let size := data.length
  let datasize := padSize size
  let message := data ++ 0x80 :: List.replicate (datasize - (size + 1)) 0
  let dataBits := u32 (size * 8)
  ((((message.set (datasize - 5) ((dataBits &&& 0xff000000) >>> 24)).set
      (datasize - 6) ((dataBits &&& 0x00ff0000) >>> 16)).set
      (datasize - 7) ((dataBits &&& 0x0000ff00) >>> 8)).set
      (datasize - 8) (dataBits &&& 0x000000ff))

/-- Pack message bytes at `offset` into a word, little-endian host arm
of the `j` loop of `MD5::calculateHash(const vector<byte>&)`. -/
def word32le (msg : List Nat) (off : Nat) : Nat :=
  (msg.getD off 0) ||| ((msg.getD (off + 1) 0) <<< 8) |||
  ((msg.getD (off + 2) 0) <<< 16) ||| ((msg.getD (off + 3) 0) <<< 24)

/-- The 16-word block `i` of the padded message. -/
def blockAt (msg : List Nat) (i : Nat) : List Nat :=
  (List.range 16).map (fun j => word32le msg (i * 64 + j * 4))

/-- `MD5::_convertToLittleEndian` on one word: byte swap. -/
def byteSwap32 (w : Nat) : Nat :=
  u32 (((w &&& 0x000000ff) <<< 24) + ((w &&& 0x0000ff00) <<< 8) +
       ((w &&& 0x00ff0000) >>> 8) + ((w &&& 0xff000000) >>> 24))

/-- The `_hash` words on return from `MD5::calculateHash` on a
little-endian host: the four chaining words, each byte-swapped. -/
def digestWords (st : Chain) : List Nat :=
  [byteSwap32 st.a, byteSwap32 st.b, byteSwap32 st.c, byteSwap32 st.d]

/-- `MD5::calculateHash(const vector<byte>&)`. -/
def calculateHash (data : List Nat) : String :=
  let message := padVector data
  let chunks := message.length / 64
  let st := (List.range chunks).foldl
    (fun st i => processBlock st (blockAt message i)) initHash
  MessageHash.asString (digestWords st)

/-- `MD5::calculateHash(const string&)`. -/
def calculateHashString (str : List Nat) : String :=
  calculateHash str

/-- `MD5::_padLastBlock` (little-endian host): set the `0x80` byte in
word `dataInBlock / 4` at byte position `dataInBlock % 4`, zero all
later words, then store the bit count in word 14. -/
def padLastBlock (lastBlock : List Nat) (dataInBlock bitsInFile : Nat) : List Nat :=
  let shift := dataInBlock % 4
  let paddingWord := (dataInBlock / 4) % 16
  let append := (lastBlock.getD paddingWord 0) ||| (0x00000080 <<< (shift * 8))
  let b := (lastBlock.set paddingWord append).take (paddingWord + 1) ++
           List.replicate (15 - paddingWord) 0
  b.set 14 bitsInFile

/-- The chunk loop of `MD5::calculateHash(ifstream&)`: read 16 words
per chunk from the stream; as soon as `endOfStream` is set, pad the
current (and every later) chunk with `_padLastBlock`. -/
def fileLoop : Nat → Chain → List Nat → Bool → Nat → Chain
  | 0, st, _, _, _ => st
  | n + 1, st, bytes, eos, filebits =>
    let r := readBlockWords (fun bs => packBytesLE bs 0) 16 bytes eos
    let block := if r.2.2.2 then padLastBlock r.1 r.2.2.1 filebits else r.1
    fileLoop n (processBlock st block) r.2.1 r.2.2.2 filebits

/-- `MD5::calculateHash(ifstream&)`: a bad stream returns the literal
all-zero string with `_hash` still zeroed; otherwise the file is
measured, read from offset 0 in streamed chunks, and the stream is
rewound with flags cleared on exit. -/
def calculateHashFile (s : IFStream) : FileResult :=
  if s.bad then
    { stream := s, hash := [0, 0, 0, 0],
      output := "00000000000000000000000000000000" }
  else
    let filesize := s.contents.length
    let filebits := u32 (filesize * 8)
    let chunks := padSize filesize / 64
    let st := fileLoop chunks initHash s.contents false filebits
    { stream := s.rewound, hash := digestWords st,
      output := MessageHash.asString (digestWords st) }

end MD5

/-! ## SHA-256 (`sha256.cpp`) -/

namespace SHA256

/-- The eight chaining variables `_hash[0..7]`. -/
structure Chain where
  a : Nat
  b : Nat
  c : Nat
  d : Nat
  e : Nat
  f : Nat
  g : Nat
  h : Nat
deriving DecidableEq, Repr

/-- `SHA256::_initializeHash`. -/
def initHash : Chain :=
  ⟨0x6a09e667, 0xbb67ae85, 0x3c6ef372, 0xa54ff53a,
   0x510e527f, 0x9b05688c, 0x1f83d9ab, 0x5be0cd19⟩

/-- The round constant table `SHA256::_K`, rows 0-7 of the
initializer in `sha256.cpp`. -/
def K : List Nat :=
  [0x428a2f98, 0x71374491, 0xb5c0fbcf, 0xe9b5dba5,
   0x3956c25b, 0x59f111f1, 0x923f82a4, 0xab1c5ed5] ++
  [0xd807aa98, 0x12835b01, 0x243185be, 0x550c7dc3,
   0x72be5d74, 0x80deb1fe, 0x9bdc06a7, 0xc19bf174] ++
  [0xe49b69c1, 0xefbe4786, 0x0fc19dc6, 0x240ca1cc,
   0x2de92c6f, 0x4a7484aa, 0x5cb0a9dc, 0x76f988da] ++
  [0x983e5152, 0xa831c66d, 0xb00327c8, 0xbf597fc7,
   0xc6e00bf3, 0xd5a79147, 0x06ca6351, 0x14292967] ++
  [0x27b70a85, 0x2e1b2138, 0x4d2c6dfc, 0x53380d13,
   0x650a7354, 0x766a0abb, 0x81c2c92e, 0x92722c85] ++
  [0xa2bfe8a1, 0xa81a664b, 0xc24b8b70, 0xc76c51a3,
   0xd192e819, 0xd6990624, 0xf40e3585, 0x106aa070] ++
  [0x19a4c116, 0x1e376c08, 0x2748774c, 0x34b0bcb5,
   0x391c0cb3, 0x4ed8aa4a, 0x5b9cca4f, 0x682e6ff3] ++
  [0x748f82ee, 0x78a5636f, 0x84c87814, 0x8cc70208,
   0x90befffa, 0xa4506ceb, 0xbef9a3f7, 0xc67178f2]

/-- `SHA256::_Ch`. -/
def Ch (x y z : Nat) : Nat := (x &&& y) ^^^ ((x ^^^ 0xffffffff) &&& z)

/-- `SHA256::_Maj`. -/
def Maj (x y z : Nat) : Nat := (x &&& y) ^^^ (x &&& z) ^^^ (y &&& z)

/-- `SHA256::_Sigma0`. -/
def Sigma0 (x : Nat) : Nat :=
  MessageHash.rcshift x 2 ^^^ MessageHash.rcshift x 13 ^^^ MessageHash.rcshift x 22

/-- `SHA256::_Sigma1`. -/
def Sigma1 (x : Nat) : Nat :=
  MessageHash.rcshift x 6 ^^^ MessageHash.rcshift x 11 ^^^ MessageHash.rcshift x 25

/-- `SHA256::_sig0`. -/
def sig0 (x : Nat) : Nat :=
  MessageHash.rcshift x 7 ^^^ MessageHash.rcshift x 18 ^^^ (x >>> 3)

/-- `SHA256::_sig1`. -/
def sig1 (x : Nat) : Nat :=
  MessageHash.rcshift x 17 ^^^ MessageHash.rcshift x 19 ^^^ (x >>> 10)

/-- The `j` in `[16, 63]` loop: extend the 16-word message block to the
64-word schedule (`+` wraps at `2^32`). -/
def extendSchedule : List Nat → Nat → List Nat
  | ws, 0 => ws
  | ws, n + 1 =>
    let len := ws.length
    let w := u32 (sig1 (ws.getD (len - 2) 0) + ws.getD (len - 7) 0 +
                  sig0 (ws.getD (len - 15) 0) + ws.getD (len - 16) 0)
    extendSchedule (ws ++ [w]) n

/-- One iteration of the 64-round compression loop. -/
def compressStep (st : Chain) (kw : Nat × Nat) : Chain :=
  let t1 := u32 (st.h + Sigma1 st.e + Ch st.e st.f st.g + kw.1 + kw.2)
  let t2 := u32 (Sigma0 st.a + Maj st.a st.b st.c)
  ⟨u32 (t1 + t2), st.a, st.b, st.c, u32 (st.d + t1), st.e, st.f, st.g⟩

/-- One 64-byte chunk: build the schedule from the 16 block words, run
the 64 rounds, add the working variables back into the chaining words. -/
def processBlock (st : Chain) (first16 : List Nat) : Chain :=
  let sched := extendSchedule first16 48
  let r := (K.zip sched).foldl compressStep st
  ⟨u32 (r.a + st.a), u32 (r.b + st.b), u32 (r.c + st.c), u32 (r.d + st.d),
   u32 (r.e + st.e), u32 (r.f + st.f), u32 (r.g + st.g), u32 (r.h + st.h)⟩

/-- `SHA256::_padVector`: append `0x80` and zeros up to the padded
size, then overwrite bytes `datasize-4 .. datasize-1` with the 32-bit
bit count, most-significant byte first; bytes `datasize-8 .. datasize-5`
stay zero. -/
def padVector (data : List Nat) : List Nat :=
  let size := data.length
  let datasize := padSize size
  let message := data ++ 0x80 :: List.replicate (datasize - (size + 1)) 0
  let dataBits := u32 (size * 8)
  ((((message.set (datasize - 4) ((dataBits &&& 0xff000000) >>> 24)).set
      (datasize - 3) ((dataBits &&& 0x00ff0000) >>> 16)).set
      (datasize - 2) ((dataBits &&& 0x0000ff00) >>> 8)).set
      (datasize - 1) (dataBits &&& 0x000000ff))

/-- Pack message bytes at `offset` into a word, little-endian host arm
of the `j` loop of `SHA256::calculateHash(const vector<byte>&)`. -/
def word32be (msg : List Nat) (off : Nat) : Nat :=
  ((msg.getD off 0) <<< 24) ||| ((msg.getD (off + 1) 0) <<< 16) |||
  ((msg.getD (off + 2) 0) <<< 8) ||| (msg.getD (off + 3) 0)

/-- The 16-word block `i` of the padded message. -/
def blockAt (msg : List Nat) (i : Nat) : List Nat :=
  (List.range 16).map (fun j => word32be msg (i * 64 + j * 4))

/-- The `_hash` words on return from `SHA256::calculateHash`: the
eight chaining words in order, with no final byte swap. -/
def digestWords (st : Chain) : List Nat :=
  [st.a, st.b, st.c, st.d, st.e, st.f, st.g, st.h]

/-- `SHA256::calculateHash(const vector<byte>&)`. -/
def calculateHash (data : List Nat) : String :=
  let message := padVector data
  let chunks := message.length / 64
  let st := (List.range chunks).foldl
    (fun st i => processBlock st (blockAt message i)) initHash
  MessageHash.asString (digestWords st)

/-- `SHA256::calculateHash(const string&)`. -/
def calculateHashString (str : List Nat) : String :=
  calculateHash str

/-- `SHA256::_padLastBlock` (little-endian host): set the `0x80` byte
in word `dataInBlock / 4` at byte position `dataInBlock % 4` (counted
from the big end), zero all later words, then store the bit count in
word 15. -/
def padLastBlock (lastBlock : List Nat) (dataInBlock bitsInFile : Nat) : List Nat :=
  let shift := dataInBlock % 4
  let paddingWord := (dataInBlock / 4) % 16
  let append := (lastBlock.getD paddingWord 0) ||| (0x00000080 <<< (24 - shift * 8))
  let b := (lastBlock.set paddingWord append).take (paddingWord + 1) ++
           List.replicate (15 - paddingWord) 0
  b.set 15 bitsInFile

/-- The chunk loop of `SHA256::calculateHash(ifstream&)`. -/
def fileLoop : Nat → Chain → List Nat → Bool → Nat → Chain
  | 0, st, _, _, _ => st
  | n + 1, st, bytes, eos, filebits =>
    let r := readBlockWords (fun bs => packBytesBE bs 0) 16 bytes eos
    let block := if r.2.2.2 then padLastBlock r.1 r.2.2.1 filebits else r.1
    fileLoop n (processBlock st block) r.2.1 r.2.2.2 filebits

/-- `SHA256::calculateHash(ifstream&)`: a bad stream returns the
all-zero 8-word `_hash`; otherwise the file is measured, read from
offset 0 in streamed chunks, and the stream is rewound with flags
cleared on exit. -/
def calculateHashFile (s : IFStream) : FileResult :=
  if s.bad then
    { stream := s, hash := List.replicate 8 0,
      output := MessageHash.asString (List.replicate 8 0) }
  else
    let filesize := s.contents.length
    let filebits := u32 (filesize * 8)
    let chunks := padSize filesize / 64
    let st := fileLoop chunks initHash s.contents false filebits
    { stream := s.rewound, hash := digestWords st,
      output := MessageHash.asString (digestWords st) }

end SHA256

/-! ## Claim-side reference definitions

These follow the spec sentences of the claims (for comparison against
the code-derived definitions above), not the source. -/

namespace Adler32

/-- Claim C2's recurrence (spec wording): `A = (A + v) mod 65521`,
`B = (B + A) mod 65521`, in exact integer arithmetic with no
intermediate wrap at `2^16`. -/
def claimStep (p : Nat × Nat) (v : Nat) : Nat × Nat :=
  let A := (p.1 + v) % 65521
  let B := (p.2 + A) % 65521
  (A, B)

/-- Claim C2's digest: run the exact recurrence from `A = 1`, `B = 0`
and pack `(B << 16) | A`. -/
def claimDigestWord (data : List Nat) : Nat :=
  let p := data.foldl claimStep (1, 0)
  (p.2 <<< 16) ||| p.1

end Adler32

namespace CRC32

/-- Claim C6's table rule, one step: shift right one, XOR-ing with
`0xEDB88320` whenever the low bit is 1. -/
def claimTableStep (v : Nat) : Nat :=
  if v % 2 = 1 then (v >>> 1) ^^^ 0xedb88320 else v >>> 1

/-- Claim C6's `table[i]`: eight steps applied to `i` (no
materialized table). -/
def claimTableEntry (i : Nat) : Nat := claimTableStep^[8] i

/-- Claim C6's per-byte fold step. -/
def claimStep (w v : Nat) : Nat :=
  (w >>> 8) ^^^ claimTableEntry ((w &&& 0xFF) ^^^ v)

/-- Claim C6's digest: fold from `0xFFFFFFFF`, then complement. -/
def claimDigestWord (data : List Nat) : Nat :=
  (data.foldl claimStep 0xFFFFFFFF) ^^^ 0xFFFFFFFF

end CRC32

/-! ## Instance state for the idempotence claim

The only mutable member a `calculateHash` call can see from a previous
call on the same instance is the `_hash` vector (on this little-endian
host `_littleEndian` is re-set to `true` by `_initialize` on every
call, and `CRC32::_table` is written only by the constructor).  Each
`run` function below threads that vector explicitly: the entry state is
the `_hash` left by any previous call, and `_initialize` discards it. -/

namespace Adler32

/-- `Adler32::calculateHash(const vector<byte_t>&)` as a state
transformer on the instance's `_hash` vector. -/
def run (st : List Nat) (data : List Nat) : List Nat × String :=
  let st := List.replicate (32 / 32) 0
  let st := st.set 0 (digestWord data)
  (st, MessageHash.asString st)

end Adler32

namespace CRC32

/-- `CRC32::calculateHash(const vector<byte>&)` as a state transformer
on the instance's `_hash` vector. -/
def run (st : List Nat) (data : List Nat) : List Nat × String :=
  let st := List.replicate (32 / 32) 0
  let st := st.set 0 (digestWord data)
  (st, MessageHash.asString st)

end CRC32

namespace ELF

/-- `ELF::calculateHash(const vector<byte>&)` as a state transformer
on the instance's `_hash` vector. -/
def run (st : List Nat) (data : List Nat) : List Nat × String :=
  let st := List.replicate (32 / 32) 0
  let st := st.set 0 (digestWord data)
  (st, MessageHash.asString st)

end ELF

namespace MD5

/-- `MD5::calculateHash(const vector<byte>&)` as a state transformer
on the instance's `_hash` vector. -/
def run (st : List Nat) (data : List Nat) : List Nat × String :=
  let st := List.replicate (128 / 32) 0
  let message := padVector data
  let chunks := message.length / 64
  let ch := (List.range chunks).foldl
    (fun c i => processBlock c (blockAt message i)) initHash
  let st := digestWords ch
  (st, MessageHash.asString st)

end MD5

namespace SHA256

/-- `SHA256::calculateHash(const vector<byte>&)` as a state
transformer on the instance's `_hash` vector. -/
def run (st : List Nat) (data : List Nat) : List Nat × String :=
  let st := List.replicate (256 / 32) 0
  let message := padVector data
  let chunks := message.length / 64
  let ch := (List.range chunks).foldl
    (fun c i => processBlock c (blockAt message i)) initHash
  let st := digestWords ch
  (st, MessageHash.asString st)

end SHA256

/-! ## Helper lemmas -/

/-- Right shift distributes over bitwise and. -/
theorem and_shiftRight_distrib (x y n : Nat) :
    (x &&& y) >>> n = (x >>> n) &&& (y >>> n) := by
  apply Nat.eq_of_testBit_eq
  intro i
  simp [Nat.testBit_shiftRight, Nat.testBit_and]

/-- Right shift distributes over bitwise xor. -/
theorem xor_shiftRight_distrib (x y n : Nat) :
    (x ^^^ y) >>> n = (x >>> n) ^^^ (y >>> n) := by
  apply Nat.eq_of_testBit_eq
  intro i
  simp [Nat.testBit_shiftRight, Nat.testBit_xor]

/-- Right shift distributes over bitwise or. -/
theorem or_shiftRight_distrib (x y n : Nat) :
    (x ||| y) >>> n = (x >>> n) ||| (y >>> n) := by
  apply Nat.eq_of_testBit_eq
  intro i
  simp [Nat.testBit_shiftRight, Nat.testBit_or]

/-- A number whose value right-shifted by `k` is zero is below `2^k`. -/
theorem lt_two_pow_of_shiftRight_eq_zero {x k : Nat} (h : x >>> k = 0) :
    x < 2 ^ k := by
  rw [Nat.shiftRight_eq_div_pow] at h
  have hd := Nat.div_add_mod x (2 ^ k)
  rw [h, Nat.mul_zero, Nat.zero_add] at hd
  have hm : x % 2 ^ k < 2 ^ k := Nat.mod_lt _ (Nat.pos_pow_of_pos _ (by omega))
  omega

/-! ## Claim theorems -/

/-- Claim C5: hashing the empty byte sequence yields the documented
fixed hex strings for all five algorithms. -/
theorem claim_C5_empty_input_digests :
    Adler32.calculateHash [] = "00000001" ∧
    CRC32.calculateHash [] = "00000000" ∧
    ELF.calculateHash [] = "00000000" ∧
    MD5.calculateHash [] = "d41d8cd98f00b204e9800998ecf8427e" ∧
    SHA256.calculateHash [] =
      "e3b0c44298fc1c149afbf4c8996fb92427ae41e4649b934ca495991b7852b855" := by
  refine ⟨by decide, by decide, by decide, by decide, by decide⟩

/-- Claim C2: the code's Adler-32 digest does not match the exact
recurrence `A = (A + v) mod 65521`, `B = (B + A) mod 65521` computed
without intermediate wrap.  The `unsigned short` accumulators wrap at
`2^16` before the modulus is applied, and on 23 bytes of `0xFF` the sum
`B + A = 70403` wraps to `4867` instead of reducing to `4882`: the code
yields `0x130316ea` where exact Adler-32 yields `0x131216ea`. -/
theorem claim_C2_adler_wrap_divergence :
    Adler32.digestWord (List.replicate 23 255) = 0x130316ea ∧
    Adler32.claimDigestWord (List.replicate 23 255) = 0x131216ea ∧
    Adler32.digestWord (List.replicate 23 255) ≠
      Adler32.claimDigestWord (List.replicate 23 255) := by
  refine ⟨by decide, by decide, by decide⟩

/-- Claim C1: for a 56-byte input (length ≡ 56 mod 64, so the padding
crosses into a new block) the file path of MD5 and of SHA-256 does not
reproduce the buffer path's digest: `_padLastBlock` overwrites the
length word of the data-bearing block and plants a second `0x80` pad
byte in the overflow block. -/
theorem claim_C1_md5_sha256_file_buffer_divergence :
    (MD5.calculateHashFile ⟨List.replicate 56 0, 0, false, false⟩).output ≠
      MD5.calculateHash (List.replicate 56 0) ∧
    (SHA256.calculateHashFile ⟨List.replicate 56 0, 0, false, false⟩).output ≠
      SHA256.calculateHash (List.replicate 56 0) := by
  refine ⟨by decide, by decide⟩

/-- Claim C8: computing twice on one instance leaks no state — the
second call's digest string equals the digest of the second input
computed on a fresh instance (whose `_hash` is all zeros), for every
entry state and every pair of inputs, for all five algorithms. -/
theorem claim_C8_no_state_leak :
    ∀ (st x y : List Nat),
      (Adler32.run (Adler32.run st x).1 y).2 =
        (Adler32.run (List.replicate 1 0) y).2 ∧
      (CRC32.run (CRC32.run st x).1 y).2 =
        (CRC32.run (List.replicate 1 0) y).2 ∧
      (ELF.run (ELF.run st x).1 y).2 =
        (ELF.run (List.replicate 1 0) y).2 ∧
      (MD5.run (MD5.run st x).1 y).2 =
        (MD5.run (List.replicate 4 0) y).2 ∧
      (SHA256.run (SHA256.run st x).1 y).2 =
        (SHA256.run (List.replicate 8 0) y).2 := by
  intro st x y
  exact ⟨rfl, rfl, rfl, rfl, rfl⟩

/-- Claim C3 counterexample: in the padded one-byte message (padded
length 64, length field in bytes 56..63, bit count 8), the code leaves
byte 56 — the first, high-order byte of the field, where the claim puts
the length — zero, and writes the length into byte 63, which the claim
requires to be zero. -/
theorem claim_C3_counterexample :
    (SHA256.padVector [0xab]).getD 56 9 = 0 ∧
    (SHA256.padVector [0xab]).getD 63 9 = 8 ∧
    ¬ ((SHA256.padVector [0xab]).getD 56 9 = 8 ∧
       (SHA256.padVector [0xab]).getD 63 9 = 0) := by
  refine ⟨by decide, by decide, by decide⟩

/-- Claim C4 counterexample: a stream whose fail flag is set on entry
(read position 2) is returned untouched by `Adler32::calculateHash
(ifstream&)` — the early-return path neither rewinds to offset 0 nor
clears the error flags, contradicting the claim. -/
theorem claim_C4_counterexample :
    ¬ (((Adler32.calculateHashFile ⟨[1, 2, 3], 2, true, false⟩).stream.pos = 0) ∧
       ((Adler32.calculateHashFile ⟨[1, 2, 3], 2, true, false⟩).stream.fail = false)) := by
  decide

/-- Claim C4 (amended): after a compute-from-file call on an initially
readable stream, the read position is at offset 0 and the error flags
are cleared; but on the early-return path taken when the stream is
initially failed, the stream is left exactly as it was — position and
flags untouched. -/
theorem claim_C4_amended_stream_reset :
    ∀ s : IFStream,
      (s.bad = false →
        (Adler32.calculateHashFile s).stream = s.rewound ∧
        (CRC32.calculateHashFile s).stream = s.rewound ∧
        (ELF.calculateHashFile s).stream = s.rewound ∧
        (MD5.calculateHashFile s).stream = s.rewound ∧
        (SHA256.calculateHashFile s).stream = s.rewound) ∧
      (s.bad = true →
        (Adler32.calculateHashFile s).stream = s ∧
        (CRC32.calculateHashFile s).stream = s ∧
        (ELF.calculateHashFile s).stream = s ∧
        (MD5.calculateHashFile s).stream = s ∧
        (SHA256.calculateHashFile s).stream = s) := by
  intro s
  constructor
  · intro h
    refine ⟨?_, ?_, ?_, ?_, ?_⟩ <;>
      simp [Adler32.calculateHashFile, CRC32.calculateHashFile,
            ELF.calculateHashFile, MD5.calculateHashFile,
            SHA256.calculateHashFile, h]
  · intro h
    refine ⟨?_, ?_, ?_, ?_, ?_⟩ <;>
      simp [Adler32.calculateHashFile, CRC32.calculateHashFile,
            ELF.calculateHashFile, MD5.calculateHashFile,
            SHA256.calculateHashFile, h]

/-- Claim C4 amended, witnessed at a readable one-byte stream and at an
initially failed stream. -/
theorem claim_C4_amended_stream_reset_witness :
    (Adler32.calculateHashFile ⟨[7], 0, false, false⟩).stream =
      IFStream.rewound ⟨[7], 0, false, false⟩ ∧
    (Adler32.calculateHashFile ⟨[1, 2, 3], 2, true, false⟩).stream =
      ⟨[1, 2, 3], 2, true, false⟩ :=
  ⟨((claim_C4_amended_stream_reset ⟨[7], 0, false, false⟩).1 (by decide)).1,
   ((claim_C4_amended_stream_reset ⟨[1, 2, 3], 2, true, false⟩).2 (by decide)).1⟩

/-- Claim C7: on a stream that is failed (or already at EOF) on entry,
every algorithm returns without error, and the observable result is all
zeros — `asString` of the zeroed `_hash` for Adler-32/CRC-32/ELF/SHA-256,
and the literal 32-character zero string for MD5. -/
theorem claim_C7_bad_stream_zero_digest :
    ∀ s : IFStream, s.bad = true →
      (Adler32.calculateHashFile s).output = "00000000" ∧
      (CRC32.calculateHashFile s).output = "00000000" ∧
      (ELF.calculateHashFile s).output = "00000000" ∧
      (SHA256.calculateHashFile s).output =
        "0000000000000000000000000000000000000000000000000000000000000000" ∧
      (MD5.calculateHashFile s).output = "00000000000000000000000000000000" := by
  intro s h
  refine ⟨?_, ?_, ?_, ?_, ?_⟩ <;>
    simp [Adler32.calculateHashFile, CRC32.calculateHashFile,
          ELF.calculateHashFile, SHA256.calculateHashFile,
          MD5.calculateHashFile, h] <;> decide

/-- Claim C7, witnessed at an unopened (failed) empty stream. -/
theorem claim_C7_bad_stream_zero_digest_witness :
    (Adler32.calculateHashFile ⟨[], 0, true, false⟩).output = "00000000" ∧
    (CRC32.calculateHashFile ⟨[], 0, true, false⟩).output = "00000000" ∧
    (ELF.calculateHashFile ⟨[], 0, true, false⟩).output = "00000000" ∧
    (SHA256.calculateHashFile ⟨[], 0, true, false⟩).output =
      "0000000000000000000000000000000000000000000000000000000000000000" ∧
    (MD5.calculateHashFile ⟨[], 0, true, false⟩).output =
      "00000000000000000000000000000000" :=
  claim_C7_bad_stream_zero_digest ⟨[], 0, true, false⟩ (by decide)

/-- Both Adler-32 accumulators stay below the modulus through any fold. -/
theorem adler_fold_bound (data : List Nat) :
    ∀ p : Nat × Nat, p.1 < 65521 → p.2 < 65521 →
      (data.foldl Adler32.step p).1 < 65521 ∧
      (data.foldl Adler32.step p).2 < 65521 := by
  induction data with
  | nil => exact fun p h1 h2 => ⟨h1, h2⟩
  | cons v rest ih =>
    intro p h1 h2
    rw [List.foldl_cons]
    refine ih _ ?_ ?_ <;> simp [Adler32.step] <;> omega

/-- Splitting the packed Adler-32 word `(B <<< 16) ||| A` back into its
halves, for `A < 2^16`. -/
theorem adler_pack_split (A B : Nat) (hA : A < 65536) :
    ((B <<< 16) ||| A) >>> 16 = B ∧ ((B <<< 16) ||| A) &&& 0xFFFF = A := by
  constructor
  · rw [or_shiftRight_distrib, Nat.shiftLeft_shiftRight]
    have hz : A >>> 16 = 0 := by
      rw [Nat.shiftRight_eq_div_pow]
      exact Nat.div_eq_of_lt hA
    rw [hz, Nat.or_zero]
  · rw [Nat.and_distrib_right]
    have h1 : (B <<< 16) &&& 0xFFFF = 0 := by
      rw [Nat.shiftLeft_eq]
      have : (0xFFFF : Nat) = 2 ^ 16 - 1 := by decide
      rw [this, Nat.and_pow_two_sub_one_eq_mod]
      exact Nat.mul_mod_left _ _
    have h2 : A &&& 0xFFFF = A := by
      have : (0xFFFF : Nat) = 2 ^ 16 - 1 := by decide
      rw [this, Nat.and_pow_two_sub_one_eq_mod]
      exact Nat.mod_eq_of_lt hA
    rw [h1, h2, Nat.zero_or]

/-- The high and low halves of any Adler-32 digest word are below 65521. -/
theorem adler_digestWord_bounds (data : List Nat) :
    Adler32.digestWord data >>> 16 < 65521 ∧
    Adler32.digestWord data &&& 0xFFFF < 65521 := by
  obtain ⟨hA, hB⟩ := adler_fold_bound data (1, 0) (by omega) (by omega)
  have hs := adler_pack_split (data.foldl Adler32.step (1, 0)).1
    (data.foldl Adler32.step (1, 0)).2 (by omega)
  unfold Adler32.digestWord
  rw [hs.1, hs.2]
  exact ⟨hB, hA⟩

/-- Claim C10: for any buffer or string input and for any
compute-from-file call, the Adler-32 digest word's high 16 bits and low
16 bits are each strictly below 65521.  (The string overload delegates
to the buffer overload, so the first part covers both; the file part
holds for any stream, readable or not, since a failed stream leaves the
zero word.) -/
theorem claim_C10_adler_halves_bounded :
    (∀ data : List Nat,
      Adler32.digestWord data >>> 16 < 65521 ∧
      Adler32.digestWord data &&& 0xFFFF < 65521) ∧
    (∀ s : IFStream,
      (Adler32.calculateHashFile s).hash.getD 0 0 >>> 16 < 65521 ∧
      (Adler32.calculateHashFile s).hash.getD 0 0 &&& 0xFFFF < 65521) := by
  refine ⟨adler_digestWord_bounds, ?_⟩
  intro s
  by_cases h : s.bad
  · simp [Adler32.calculateHashFile, h]
  · simpa [Adler32.calculateHashFile, h] using
      adler_digestWord_bounds s.remaining

/-- One ELF step always leaves the top four bits clear: the step masks
the new word with the complement of its own top nibble. -/
theorem elf_step_lt (w v : Nat) : ELF.step w v < 2 ^ 28 := by
  have hgen : ∀ x : Nat, x < 2 ^ 32 →
      (let temp := x &&& 0xf0000000
       let x2 := if temp ≠ 0x00000000 then x ^^^ (temp >>> 24) else x
       x2 &&& (temp ^^^ 0xffffffff)) < 2 ^ 28 := by
    intro x hx
    simp only []
    have htlt : x >>> 28 < 16 := by
      rw [Nat.shiftRight_eq_div_pow]
      rw [Nat.div_lt_iff_lt_mul (by decide : (0:Nat) < 2 ^ 28)]
      calc x < 2 ^ 32 := hx
        _ = 16 * 2 ^ 28 := by decide
    have htop : (x &&& 0xf0000000) >>> 28 = (x >>> 28) &&& 15 := by
      rw [and_shiftRight_distrib]
      have hlit : (0xf0000000 : Nat) >>> 28 = 15 := by decide
      rw [hlit]
    by_cases h : x &&& 0xf0000000 = 0
    · -- the top nibble of the shifted word was already zero
      have ht0 : x >>> 28 = 0 := by
        have h15 : (x >>> 28) &&& 15 = x >>> 28 := by
          have he : (15 : Nat) = 2 ^ 4 - 1 := by decide
          rw [he, Nat.and_pow_two_sub_one_eq_mod]
          exact Nat.mod_eq_of_lt htlt
        have h0 : (x >>> 28) &&& 15 = 0 := by
          rw [← htop, h]
          decide
        rw [← h15]
        exact h0
      apply lt_two_pow_of_shiftRight_eq_zero
      rw [h]
      simp only [ne_eq, not_true_eq_false, if_false]
      rw [and_shiftRight_distrib, ht0, Nat.zero_and]
    · -- the top nibble was folded in and is cleared by the final mask
      simp only [ne_eq, h, not_false_eq_true, if_true]
      apply lt_two_pow_of_shiftRight_eq_zero
      rw [and_shiftRight_distrib, xor_shiftRight_distrib, xor_shiftRight_distrib]
      have hsmall : ((x &&& 0xf0000000) >>> 24) >>> 28 = 0 := by
        rw [Nat.shiftRight_eq_div_pow, Nat.shiftRight_eq_div_pow]
        apply Nat.div_eq_of_lt
        have h1 : x &&& 0xf0000000 ≤ 0xf0000000 := Nat.and_le_right
        have h2 : (x &&& 0xf0000000) / 2 ^ 24 ≤ 0xf0000000 / 2 ^ 24 :=
          Nat.div_le_div_right h1
        calc (x &&& 0xf0000000) / 2 ^ 24 ≤ 0xf0000000 / 2 ^ 24 := h2
          _ < 2 ^ 28 := by decide
      have hmask : (0xffffffff : Nat) >>> 28 = 15 := by decide
      rw [hsmall, Nat.xor_zero, hmask, htop]
      revert htlt
      generalize x >>> 28 = t
      intro htlt
      have : ∀ u, u < 16 → u &&& ((u &&& 15) ^^^ 15) = 0 := by decide
      exact this t htlt
  have hx : u32 (u32 (w <<< 4) + v) < 2 ^ 32 :=
    Nat.mod_lt _ (by decide)
  exact hgen (u32 (u32 (w <<< 4) + v)) hx

/-- The ELF fold keeps the digest word below `2^28` from any such start. -/
theorem elf_fold_lt (data : List Nat) :
    ∀ w, w < 2 ^ 28 → data.foldl ELF.step w < 2 ^ 28 := by
  induction data with
  | nil => exact fun w hw => hw
  | cons v rest ih => exact fun w _ => ih _ (elf_step_lt w v)

/-- Claim C9: the ELF digest word always has its top four bits zero —
it is strictly below `0x10000000` — for every buffer input and every
compute-from-file call (a failed stream leaves the zero word, which
also satisfies the bound). -/
theorem claim_C9_elf_top_nibble_zero :
    (∀ data : List Nat, ELF.digestWord data < 0x10000000) ∧
    (∀ s : IFStream, (ELF.calculateHashFile s).hash.getD 0 0 < 0x10000000) := by
  have hbuf : ∀ data : List Nat, ELF.digestWord data < 0x10000000 := by
    intro data
    have h := elf_fold_lt data 0 (by decide)
    have he : (2 : Nat) ^ 28 = 0x10000000 := by decide
    rw [he] at h
    exact h
  refine ⟨hbuf, ?_⟩
  intro s
  by_cases h : s.bad
  · simp [ELF.calculateHashFile, h]
  · simpa [ELF.calculateHashFile, h] using hbuf s.remaining

/-- Looking up the materialized CRC table agrees with computing the
entry directly by the eight-step rule, on every byte index. -/
theorem crc_table_lookup : ∀ i < 256,
    CRC32.table.getD i 0 = CRC32.claimTableEntry i := by decide

/-- The table-driven CRC fold equals the claim-side fold on byte data. -/
theorem crc_fold_eq (data : List Nat) :
    ∀ w, (∀ b ∈ data, b < 256) →
      data.foldl CRC32.step w = data.foldl CRC32.claimStep w := by
  induction data with
  | nil => exact fun w _ => rfl
  | cons v rest ih =>
    intro w hb
    have hv : v < 256 := hb v (List.mem_cons_self v rest)
    have h1 : w &&& 0xFF < 256 := Nat.lt_succ_of_le Nat.and_le_right
    have hidx : (w &&& 0xFF) ^^^ v < 256 :=
      Nat.xor_lt_two_pow (n := 8) h1 hv
    have hstep : CRC32.step w v = CRC32.claimStep w v := by
      unfold CRC32.step CRC32.claimStep
      rw [crc_table_lookup _ hidx]
    rw [List.foldl_cons, List.foldl_cons, hstep]
    exact ih _ (fun b hb2 => hb b (List.mem_cons_of_mem _ hb2))

/-- Claim C6: for every byte sequence the CRC-32 digest is the
complement of the fold from `0xFFFFFFFF` through the table whose entry
`i` arises from `i` by eight shift-XOR steps with `0xEDB88320`; and the
digest of the ASCII string "123456789" is `cbf43926`. -/
theorem claim_C6_crc32_fold_spec :
    (∀ data : List Nat, (∀ b ∈ data, b < 256) →
      CRC32.digestWord data = CRC32.claimDigestWord data) ∧
    CRC32.calculateHash [49, 50, 51, 52, 53, 54, 55, 56, 57] = "cbf43926" := by
  constructor
  · intro data hb
    unfold CRC32.digestWord CRC32.claimDigestWord
    rw [crc_fold_eq data _ hb]
  · decide

/-- Claim C6, witnessed on the ASCII bytes of "123456789". -/
theorem claim_C6_crc32_fold_spec_witness :
    CRC32.digestWord [49, 50, 51, 52, 53, 54, 55, 56, 57] =
      CRC32.claimDigestWord [49, 50, 51, 52, 53, 54, 55, 56, 57] :=
  claim_C6_crc32_fold_spec.1 _ (by decide)

/-- The padded size is at least nine bytes beyond the data. -/
theorem padSize_ge (n : Nat) : n + 9 ≤ padSize n := by
  unfold padSize
  omega

/-- Length of the message before the length-field bytes are written. -/
theorem padMessage_length (data : List Nat) :
    (data ++ 0x80 :: List.replicate (padSize data.length - (data.length + 1)) 0).length
      = padSize data.length := by
  have h := padSize_ge data.length
  simp only [List.length_append, List.length_cons, List.length_replicate]
  omega

/-- Every byte of the padded message strictly after the `0x80` marker
and before the in-place updates is zero. -/
theorem padMessage_tail (data : List Nat) (p : Nat)
    (h1 : data.length + 1 ≤ p) (h2 : p < padSize data.length) :
    (data ++ 0x80 :: List.replicate (padSize data.length - (data.length + 1)) 0)[p]?
      = some 0 := by
  rw [List.getElem?_append_right (by omega : data.length ≤ p)]
  have hp : p - data.length = (p - data.length - 1) + 1 := by omega
  rw [hp, List.getElem?_cons_succ]
  exact List.getElem?_replicate_of_lt (by omega)

/-- Extracting one byte of a 32-bit word by mask-and-shift. -/
theorem mask_byte_eq (x m k : Nat) (hm : m >>> k = 255) :
    (x &&& m) >>> k = x / 2 ^ k % 2 ^ 8 := by
  rw [and_shiftRight_distrib, hm]
  have h255 : (255 : Nat) = 2 ^ 8 - 1 := by decide
  rw [h255, Nat.and_pow_two_sub_one_eq_mod, Nat.shiftRight_eq_div_pow]

/-- Claim C3 (amended): in every SHA-256 padded message the appended
32-bit bit-length occupies the low-order (last) four bytes of the final
8-byte length field, in big-endian byte order, and the high-order
(first) four bytes of that field are always zero — the opposite
placement from the claim's "(first)"/"(last)" reading. -/
theorem claim_C3_amended_sha256_length_field :
    ∀ data : List Nat,
      (SHA256.padVector data).length = padSize data.length ∧
      ((SHA256.padVector data).getD (padSize data.length - 8) 9 = 0 ∧
       (SHA256.padVector data).getD (padSize data.length - 7) 9 = 0 ∧
       (SHA256.padVector data).getD (padSize data.length - 6) 9 = 0 ∧
       (SHA256.padVector data).getD (padSize data.length - 5) 9 = 0) ∧
      ((SHA256.padVector data).getD (padSize data.length - 4) 9 =
         u32 (data.length * 8) / 2 ^ 24 % 2 ^ 8 ∧
       (SHA256.padVector data).getD (padSize data.length - 3) 9 =
         u32 (data.length * 8) / 2 ^ 16 % 2 ^ 8 ∧
       (SHA256.padVector data).getD (padSize data.length - 2) 9 =
         u32 (data.length * 8) / 2 ^ 8 % 2 ^ 8 ∧
       (SHA256.padVector data).getD (padSize data.length - 1) 9 =
         u32 (data.length * 8) % 2 ^ 8) := by
  intro data
  have h9 := padSize_ge data.length
  have hmsg := padMessage_length data
  simp only [SHA256.padVector]
  refine ⟨?_, ⟨?_, ?_, ?_, ?_⟩, ⟨?_, ?_, ?_, ?_⟩⟩
  · simp only [List.length_set]
    exact hmsg
  · rw [List.getD_eq_getElem?_getD,
        List.getElem?_set_ne (by omega : padSize data.length - 1 ≠ padSize data.length - 8),
        List.getElem?_set_ne (by omega : padSize data.length - 2 ≠ padSize data.length - 8),
        List.getElem?_set_ne (by omega : padSize data.length - 3 ≠ padSize data.length - 8),
        List.getElem?_set_ne (by omega : padSize data.length - 4 ≠ padSize data.length - 8),
        padMessage_tail data _ (by omega) (by omega)]
    rfl
  · rw [List.getD_eq_getElem?_getD,
        List.getElem?_set_ne (by omega : padSize data.length - 1 ≠ padSize data.length - 7),
        List.getElem?_set_ne (by omega : padSize data.length - 2 ≠ padSize data.length - 7),
        List.getElem?_set_ne (by omega : padSize data.length - 3 ≠ padSize data.length - 7),
        List.getElem?_set_ne (by omega : padSize data.length - 4 ≠ padSize data.length - 7),
        padMessage_tail data _ (by omega) (by omega)]
    rfl
  · rw [List.getD_eq_getElem?_getD,
        List.getElem?_set_ne (by omega : padSize data.length - 1 ≠ padSize data.length - 6),
        List.getElem?_set_ne (by omega : padSize data.length - 2 ≠ padSize data.length - 6),
        List.getElem?_set_ne (by omega : padSize data.length - 3 ≠ padSize data.length - 6),
        List.getElem?_set_ne (by omega : padSize data.length - 4 ≠ padSize data.length - 6),
        padMessage_tail data _ (by omega) (by omega)]
    rfl
  · rw [List.getD_eq_getElem?_getD,
        List.getElem?_set_ne (by omega : padSize data.length - 1 ≠ padSize data.length - 5),
        List.getElem?_set_ne (by omega : padSize data.length - 2 ≠ padSize data.length - 5),
        List.getElem?_set_ne (by omega : padSize data.length - 3 ≠ padSize data.length - 5),
        List.getElem?_set_ne (by omega : padSize data.length - 4 ≠ padSize data.length - 5),
        padMessage_tail data _ (by omega) (by omega)]
    rfl
  · rw [List.getD_eq_getElem?_getD,
        List.getElem?_set_ne (by omega : padSize data.length - 1 ≠ padSize data.length - 4),
        List.getElem?_set_ne (by omega : padSize data.length - 2 ≠ padSize data.length - 4),
        List.getElem?_set_ne (by omega : padSize data.length - 3 ≠ padSize data.length - 4),
        List.getElem?_set_self (by omega)]
    exact mask_byte_eq _ _ _ (by decide)
  · rw [List.getD_eq_getElem?_getD,
        List.getElem?_set_ne (by omega : padSize data.length - 1 ≠ padSize data.length - 3),
        List.getElem?_set_ne (by omega : padSize data.length - 2 ≠ padSize data.length - 3),
        List.getElem?_set_self (by simp only [List.length_set]; omega)]
    exact mask_byte_eq _ _ _ (by decide)
  · rw [List.getD_eq_getElem?_getD,
        List.getElem?_set_ne (by omega : padSize data.length - 1 ≠ padSize data.length - 2),
        List.getElem?_set_self (by simp only [List.length_set]; omega)]
    exact mask_byte_eq _ _ _ (by decide)
  · rw [List.getD_eq_getElem?_getD,
        List.getElem?_set_self (by simp only [List.length_set]; omega)]
    have h255 : (0x000000ff : Nat) = 2 ^ 8 - 1 := by decide
    rw [h255, Nat.and_pow_two_sub_one_eq_mod]
    rfl

end Gash
